import Mathlib

/-!
# Verification of the QQ email join-verification plugin (`src/main.py`)

Shallow embedding of the verification-session lifecycle manager from
`QQEmailVerifyPlugin` in `src/main.py`.  Conventions:

* Python `float` timestamps and delays are modelled as `ℚ` (exact rational
  time; floating point rounding is not relevant to any claim).
* `self.pending_verifications` (a Python `dict`, insertion ordered, unique
  keys) is modelled as an association list `List (String × Session)`.
* `asyncio` tasks are modelled by `TaskRec` records carrying a task id, the
  owning user, the group, and a liveness flag; `Task.cancel()` and a task
  body running to completion both clear the flag.
* Outbound effects (platform actions, task launches, persistence writes,
  command replies) are modelled as an `Action` trace in program order.
* Random code generation (`_generate_code`), the wall clock (`time.time()`)
  and the group-info fetch result are environment inputs, passed as
  parameters to the handlers.
-/

/-- One pending verification, mirroring the per-user dict stored in
`self.pending_verifications` (`main.py` lines 30-38): `group_id`, the set
`codes`, the float `join_time`, and the expiry task handle (`task` is absent
on freshly loaded data, hence `Option`). -/
structure Session where
  group_id : String
  codes : Finset String
  join_time : ℚ
  task : Option Nat
deriving DecidableEq

/-- An `asyncio` kick task handle: id, owning user, target group, and whether
the task is still live (neither cancelled nor completed). -/
structure TaskRec where
  tid : Nat
  tuser : String
  tgroup : String
  tlive : Bool
deriving DecidableEq

/-- The plugin's mutable state: the registry `pending_verifications`, the
arena of kick tasks ever created, and a fresh-id counter for task handles. -/
structure PState where
  reg : List (String × Session)
  tasks : List TaskRec
  nextId : Nat
deriving DecidableEq

/-- Static configuration, mirroring the fields `_load_config` caches on the
plugin plus the bot's own id and the message templates read from
`self.config`. -/
structure Config where
  whitelist_groups : Finset String
  blacklist_groups : Finset String
  kick_delay_seconds : ℤ
  self_id : String
  welcome_msg_template : String
  kick_msg_template : String
  verify_success_msg : String
deriving DecidableEq

/-! ## Registry (Python dict) primitives -/

/-- `u in d` / `d[u]` lookup on the association list. -/
def regFind (reg : List (String × Session)) (u : String) : Option Session :=
  (reg.find? (fun p => p.1 == u)).map (·.2)

/-- `d[u] = s`: replace in place if the key exists, else append (Python dict
assignment keeps insertion order). -/
def regSet (reg : List (String × Session)) (u : String) (s : Session) :
    List (String × Session) :=
  if (reg.find? (fun p => p.1 == u)).isSome then
    reg.map (fun p => if p.1 == u then (u, s) else p)
  else
    reg ++ [(u, s)]

/-- `del d[u]`. -/
def regErase (reg : List (String × Session)) (u : String) :
    List (String × Session) :=
  reg.filter (fun p => !(p.1 == u))

/-! ## Task-arena primitives -/

/-- Cancelling (or completing) the task with handle `tid`: its liveness flag
is cleared; ids, owners and groups are untouched. -/
def cancelTask (tid : Nat) (ts : List TaskRec) : List TaskRec :=
  ts.map (fun t => if t.tid == tid then { t with tlive := false } else t)

/-- `verification["task"].cancel()`: cancel the session's stored handle
(no-op if the loaded session has no handle yet). -/
def cancelSessionTask (s : Session) (ts : List TaskRec) : List TaskRec :=
  match s.task with
  | some tid => cancelTask tid ts
  | none => ts

/-- Number of live kick tasks owned by user `u`. -/
def liveCount (u : String) (ts : List TaskRec) : Nat :=
  (ts.filter (fun t => t.tuser == u && t.tlive)).length

/-! ## Group filter (`_is_group_enabled`, `main.py` lines 110-121) -/

/-- `_is_group_enabled`: whitelist mode if the whitelist is non-empty, else
blacklist mode if the blacklist is non-empty, else enabled. -/
def is_group_enabled (cfg : Config) (group_id : String) : Bool :=
  if cfg.whitelist_groups.Nonempty then
    decide (group_id ∈ cfg.whitelist_groups)
  else if cfg.blacklist_groups.Nonempty then
    decide (group_id ∉ cfg.blacklist_groups)
  else
    true

/-! ## Python `str.strip` and the email regex (`main.py` lines 353-356) -/

/-- `str.strip()` on a character list: drop whitespace from both ends. -/
def stripChars (cs : List Char) : List Char :=
  ((cs.dropWhile Char.isWhitespace).reverse.dropWhile Char.isWhitespace).reverse

/-- Python `s.strip()`. -/
def pyStrip (s : String) : String := ⟨stripChars s.data⟩

/-- Character class `[a-zA-Z0-9._%+-]` (the local part of the regex). -/
def isEmailLocalChar (c : Char) : Bool :=
  c.isAlpha || c.isDigit || c == '.' || c == '_' || c == '%' || c == '+' || c == '-'

/-- Character class `[a-zA-Z0-9.-]` (the domain part of the regex). -/
def isEmailDomainChar (c : Char) : Bool :=
  c.isAlpha || c.isDigit || c == '.' || c == '-'

/-- The domain suffix of the pattern, `[a-zA-Z0-9.-]+\.[a-zA-Z]\x7b2,\x7d`:
since the final letter block contains no dot, a string matches iff all its
characters are in the domain class, it has a dot that is not its first
character, and everything after the last dot is at least two letters. -/
def emailDomainOk (d : List Char) : Bool :=
  let tld := d.reverse.takeWhile (fun c => !(c == '.'))
  d.all isEmailDomainChar &&
    decide (tld.length < d.length) &&
    decide (1 < d.length - tld.length) &&
    decide (2 ≤ tld.length) &&
    tld.all (fun c => c.isAlpha)

/-- Whole-string match of `^[a-zA-Z0-9._%+-]+@[a-zA-Z0-9.-]+\.[a-zA-Z]\x7b2,\x7d$`
(without the `$`-before-final-newline allowance). Neither class contains
`@`, so a match has exactly one `@` splitting local part from domain. -/
def emailShape (cs : List Char) : Bool :=
  let lcl := cs.takeWhile (fun c => !(c == '@'))
  match cs.dropWhile (fun c => !(c == '@')) with
  | [] => false
  | _ :: domain => !lcl.isEmpty && lcl.all isEmailLocalChar && emailDomainOk domain

/-- `re.match(email_regex, s)` truthiness: Python's `$` also matches just
before a single final newline. -/
def reMatchEmail (s : String) : Bool :=
  let cs := s.data
  emailShape cs ||
    (match cs.getLast? with
     | some c => c == '\n' && emailShape cs.dropLast
     | none => false)

/-! ## Message rendering (string-replace templating) -/

/-- `{at_user}` substitution payload. -/
def atUser (user_id : String) : String := "[CQ:at,qq=" ++ user_id ++ "]"

/-- Welcome message (`main.py` lines 278-280): substitute `\x7bat_user\x7d`
and `\x7btimeout\x7d` (minutes, integer division by 60). -/
def renderWelcome (cfg : Config) (user_id : String) : String :=
  (cfg.welcome_msg_template.replace "\x7bat_user\x7d" (atUser user_id)).replace
    "\x7btimeout\x7d" (toString (cfg.kick_delay_seconds / 60))

/-- Kick notice (`main.py` lines 197-198). -/
def renderKick (cfg : Config) (user_id : String) : String :=
  cfg.kick_msg_template.replace "\x7bat_user\x7d" (atUser user_id)

/-- Verification-success message (`main.py` lines 322-323). -/
def renderSuccess (cfg : Config) (user_id : String) : String :=
  cfg.verify_success_msg.replace "\x7bat_user\x7d" (atUser user_id)

/-! ## Outbound effects -/

/-- One observable step of a handler, in program order. -/
inductive Act where
  /-- `asyncio.create_task(self._kick_task(u, g, delay))`. -/
  | startKickTask (tid : Nat) (user group : String) (delay : ℚ)
  /-- `self.pending_verifications[user] = {...}` on the join path. -/
  | registryInsert (user : String)
  /-- `self._save_data()`. -/
  | persist
  /-- `await event.bot.call_action("get_group_info", ...)`. -/
  | fetchGroupInfo (group : String)
  /-- `asyncio.create_task(self._send_email_async(to, code, gname, g))`. -/
  | startMailTask (toAddr code gname : String)
  /-- `await ... call_action("send_group_msg", ...)`. -/
  | sendGroupMsg (group msg : String)
  /-- `await ... call_action("set_group_kick", ...)`. -/
  | kickMember (group user : String)
  /-- `yield event.plain_result(msg)`. -/
  | reply (msg : String)
deriving DecidableEq

/-- Actions at which the coroutine suspends and yields the event loop
(`await`s and generator yields); task launches and synchronous file writes
do not suspend. -/
def isAwaitAction : Act → Bool
  | .fetchGroupInfo _ => true
  | .sendGroupMsg _ _ => true
  | .kickMember _ _ => true
  | .reply _ => true
  | _ => false

def isStartKickAction : Act → Bool
  | .startKickTask _ _ _ _ => true
  | _ => false

def isRegistryInsertAction : Act → Bool
  | .registryInsert _ => true
  | _ => false

def isPersistAction : Act → Bool
  | .persist => true
  | _ => false

def isStartMailAction : Act → Bool
  | .startMailTask _ _ _ => true
  | _ => false

/-! ## Event handlers (`on_event`, `main.py` lines 219-330) -/

/-- The `aiocqhttp` raw notification/message payloads `on_event` dispatches
on (`post_type` / `notice_type` / `message_type`). -/
inductive RawEvent where
  | group_increase (user_id group_id : String)
  | group_decrease (user_id group_id : String)
  | group_message (user_id group_id message_str : String)
deriving DecidableEq

/-- Join branch (`main.py` lines 236-281).  Environment inputs: `code` is
the `_generate_code()` draw, `now` the `time.time()` reading, `gname` the
`get_group_info` result (`none` when the fetch raised).  Note the source
creates the kick task (line 255) BEFORE inserting the registry entry
(line 258) and saving (line 264); an existing entry for `user_id` is
overwritten and its old task is not cancelled. -/
def handle_group_increase (cfg : Config) (st : PState)
    (user_id group_id code : String) (now : ℚ) (gname : Option String) :
    PState × List Act :=
  if is_group_enabled cfg group_id = false then (st, [])
  else if user_id == cfg.self_id then (st, [])
  else
    let email := user_id ++ "@qq.com"
    let tid := st.nextId
    let st1 : PState :=
      { reg := regSet st.reg user_id
          { group_id := group_id, codes := {code}, join_time := now,
            task := some tid },
        tasks := st.tasks ++ [⟨tid, user_id, group_id, true⟩],
        nextId := st.nextId + 1 }
    let group_name := gname.getD group_id
    (st1,
     [Act.startKickTask tid user_id group_id (cfg.kick_delay_seconds : ℚ),
      Act.registryInsert user_id,
      Act.persist,
      Act.fetchGroupInfo group_id,
      Act.startMailTask email code group_name,
      Act.sendGroupMsg group_id (renderWelcome cfg user_id)])

/-- Leave branch (`main.py` lines 284-290): keyed on `user_id` only — the
notification's `group_id` is read from `raw` but never compared. -/
def handle_group_decrease (cfg : Config) (st : PState)
    (user_id group_id : String) : PState × List Act :=
  match regFind st.reg user_id with
  | some s =>
      ({ reg := regErase st.reg user_id,
         tasks := cancelSessionTask s st.tasks,
         nextId := st.nextId },
       [Act.persist])
  | none => (st, [])

/-- Group-message branch (`main.py` lines 293-330): code match removes the
session (cancel task, delete, save, send success message); any other
message from a pending user is merely suppressed. -/
def handle_group_message (cfg : Config) (st : PState)
    (user_id group_id message_str : String) : PState × List Act :=
  if is_group_enabled cfg group_id = false then (st, [])
  else
    match regFind st.reg user_id with
    | none => (st, [])
    | some s =>
        if !(s.group_id == group_id) then (st, [])
        else
          let msg_text := pyStrip message_str
          if msg_text ∈ s.codes then
            ({ reg := regErase st.reg user_id,
               tasks := cancelSessionTask s st.tasks,
               nextId := st.nextId },
             [Act.persist,
              Act.sendGroupMsg group_id (renderSuccess cfg user_id)])
          else (st, [])

/-- `on_event` dispatcher (platform / raw-shape guards of lines 223-233 are
outside the model: events of other platforms or malformed payloads never
reach these branches). -/
def on_event (cfg : Config) (st : PState) (ev : RawEvent)
    (code : String) (now : ℚ) (gname : Option String) : PState × List Act :=
  match ev with
  | .group_increase u g => handle_group_increase cfg st u g code now gname
  | .group_decrease u g => handle_group_decrease cfg st u g
  | .group_message u g txt => handle_group_message cfg st u g txt

/-! ## Expiry firing (`_kick_task` body after the sleep, lines 188-217) -/

/-- The kick task with handle `tid` for `user_id`/`group_id` wakes up.
`clientOk` models `get_client()` returning a usable client, `sendFails`
an exception from the `send_group_msg` call (which skips the kick call,
both being in one `try`), `kickFails` an exception from `set_group_kick`
(caught; nothing in the `try` follows it, so it changes no behaviour).
Cleanup (delete + save) runs whenever the user is still pending; the
task's own handle goes dead when the body ends. -/
def kick_task_fire (cfg : Config) (st : PState) (tid : Nat)
    (user_id group_id : String) (clientOk sendFails kickFails : Bool) :
    PState × List Act :=
  match regFind st.reg user_id with
  | none => ({ st with tasks := cancelTask tid st.tasks }, [])
  | some _ =>
      let acts : List Act :=
        if clientOk then
          if sendFails then [Act.sendGroupMsg group_id (renderKick cfg user_id)]
          else [Act.sendGroupMsg group_id (renderKick cfg user_id),
                Act.kickMember group_id user_id]
        else []
      ({ reg := regErase st.reg user_id,
         tasks := cancelTask tid st.tasks,
         nextId := st.nextId },
       acts ++ [Act.persist])

/-! ## Resend command (`resend_verify_code`, `main.py` lines 332-376) -/

/-- `/验证码 [email]`.  `new_code` is the `_generate_code()` draw and
`gname` the group-info result.  Python truthiness: an empty `email`
argument falls back to `user_id@qq.com`, otherwise the argument is
stripped before the regex check. -/
def resend_verify_code (cfg : Config) (st : PState)
    (user_id group_id email new_code : String) (gname : Option String) :
    PState × List Act :=
  if is_group_enabled cfg group_id = false then (st, [])
  else
    match regFind st.reg user_id with
    | none => (st, [Act.reply "您当前不需要验证。"])
    | some s =>
        if !(s.group_id == group_id) then
          (st, [Act.reply "请在申请入群的群聊中使用此指令。"])
        else
          let target_email :=
            if email == "" then user_id ++ "@qq.com" else pyStrip email
          if reMatchEmail target_email = false then
            (st, [Act.reply ("邮箱格式不正确: " ++ target_email)])
          else
            let st1 : PState :=
              { st with
                reg := regSet st.reg user_id
                  { s with codes := insert new_code s.codes } }
            (st1,
             [Act.persist,
              Act.fetchGroupInfo group_id,
              Act.startMailTask target_email new_code (gname.getD group_id),
              Act.reply ("已将新的验证码发送至 " ++ target_email ++
                "，请查收。旧验证码依然有效。")])

/-! ## Persistence (`_load_data` / `_save_data`, `main.py` lines 50-78) -/

/-- On-disk form of one session in `verifications.json`: `group_id`,
`codes` as a JSON list, `join_time`; no task handle. -/
structure Snapshot where
  group_id : String
  codes : List String
  join_time : ℚ
deriving DecidableEq

/-- `_save_data`: serializable projection of the registry, `codes` via
`list(...)` — the set enumerated in some order; the order is immaterial
(and proved so below), here the lexicographic one for executability. -/
def save_data (reg : List (String × Session)) : List (String × Snapshot) :=
  reg.map (fun p =>
    (p.1, { group_id := p.2.group_id,
            codes := p.2.codes.sort (· ≤ ·),
            join_time := p.2.join_time }))

/-- `_load_data` on an existing readable file: `codes` converted back to a
set; no `task` key yet. -/
def load_data (d : List (String × Snapshot)) : List (String × Session) :=
  d.map (fun p =>
    (p.1, { group_id := p.2.group_id, codes := p.2.codes.toFinset,
            join_time := p.2.join_time, task := none }))

/-! ## Restart resumption (`_resume_tasks`, `main.py` lines 80-92) -/

/-- Delay re-armed for a loaded session: `remaining = kick_delay - (now -
join_time)`, clamped to an immediate fire when it is non-positive. -/
def resume_delay (kick_delay : ℤ) (now join_time : ℚ) : ℚ :=
  let elapsed := now - join_time
  let remaining := (kick_delay : ℚ) - elapsed
  if remaining ≤ 0 then 0 else remaining

/-- Loop body of `_resume_tasks` over the registry items, threading the
fresh task-id counter; returns the updated entries, the created task
records, the next counter and the launch trace. -/
def resume_go (kick_delay : ℤ) (now : ℚ) (nid : Nat) :
    List (String × Session) →
      List (String × Session) × List TaskRec × Nat × List Act
  | [] => ([], [], nid, [])
  | (u, s) :: rest =>
      let d := resume_delay kick_delay now s.join_time
      let r := resume_go kick_delay now (nid + 1) rest
      ((u, { s with task := some nid }) :: r.1,
       ⟨nid, u, s.group_id, true⟩ :: r.2.1,
       r.2.2.1,
       Act.startKickTask nid u s.group_id d :: r.2.2.2)

/-- `_resume_tasks`: one kick task per loaded session, armed with the
recomputed remaining delay (`delay=0` for already-expired sessions). -/
def resume_tasks (cfg : Config) (now : ℚ) (st : PState) : PState × List Act :=
  let r := resume_go cfg.kick_delay_seconds now st.nextId st.reg
  ({ reg := r.1, tasks := st.tasks ++ r.2.1, nextId := r.2.2.1 }, r.2.2.2)

/-! ## The claimed invariant (spec §3) and supporting well-formedness -/

/-- The session's stored handle denotes a live task owned by its user. -/
def sessionTaskLive (u : String) (s : Session) (ts : List TaskRec) : Bool :=
  match s.task with
  | some tid => ts.any (fun t => t.tid == tid && t.tuser == u && t.tlive)
  | none => false

/-- Spec §3 invariant, as claimed: every registered session's stored handle
is live and its user owns exactly one live expiry task. -/
def OneTaskInv (st : PState) : Prop :=
  ∀ p ∈ st.reg, sessionTaskLive p.1 p.2 st.tasks = true ∧
    liveCount p.1 st.tasks = 1

/-- Complement needed for inductiveness: every live task belongs to a
currently registered user. -/
def TasksOwned (st : PState) : Prop :=
  ∀ t ∈ st.tasks, t.tlive = true → (regFind st.reg t.tuser).isSome = true

/-- Structural well-formedness: task ids are unique and below the counter;
registry keys are unique (it models a Python dict). -/
def StateWF (st : PState) : Prop :=
  (st.tasks.map TaskRec.tid).Nodup ∧
    (∀ t ∈ st.tasks, t.tid < st.nextId) ∧
    (st.reg.map Prod.fst).Nodup

instance : DecidablePred OneTaskInv := fun st => by
  unfold OneTaskInv; infer_instance

instance : DecidablePred TasksOwned := fun st => by
  unfold TasksOwned; infer_instance

instance : DecidablePred StateWF := fun st => by
  unfold StateWF; infer_instance

/-- Combined inductive property: structural well-formedness, the claimed
one-live-task invariant, and live-task ownership. -/
def GoodState (st : PState) : Prop :=
  StateWF st ∧ OneTaskInv st ∧ TasksOwned st

instance : DecidablePred GoodState := fun st => by
  unfold GoodState; infer_instance

/-! ## Concrete example configurations and states -/

/-- Open configuration: no whitelist, no blacklist, 300 s kick delay. -/
def cfg0 : Config :=
  { whitelist_groups := ∅, blacklist_groups := ∅, kick_delay_seconds := 300,
    self_id := "999", welcome_msg_template := "w", kick_msg_template := "k",
    verify_success_msg := "s" }

/-- Whitelist-mode configuration enabling only group `200`. -/
def cfgW : Config :=
  { whitelist_groups := {"200"}, blacklist_groups := {"300"},
    kick_delay_seconds := 300, self_id := "999",
    welcome_msg_template := "w", kick_msg_template := "k",
    verify_success_msg := "s" }

/-- Fresh state: empty registry, no tasks. -/
def stEmpty : PState := ⟨[], [], 0⟩

/-- After user `100` joins group `1` at time 0 with generated code
`111111`. -/
def st0 : PState :=
  (on_event cfg0 stEmpty (.group_increase "100" "1") "111111" 0 none).1

/-- After a second join event for user `100` at time 5 with generated code
`222222`, while the first verification is still pending. -/
def st1 : PState :=
  (on_event cfg0 st0 (.group_increase "100" "1") "222222" 5 none).1

/-- Action trace of the first join event. -/
def tr0 : List Act :=
  (on_event cfg0 stEmpty (.group_increase "100" "1") "111111" 0 none).2

/-- A state with user `100` pending verification in group `300`. -/
def stPend : PState :=
  ⟨[("100", ⟨"300", {"111111"}, 0, some 0⟩)], [⟨0, "100", "300", true⟩], 1⟩

/-- A freshly loaded state (no tasks yet): one session for user `A` in
group `1`, joined at time 0, no task handle. -/
def stLoaded : PState := ⟨[("A", ⟨"1", {"111111"}, 0, none⟩)], [], 0⟩

/-! ## Registry lemmas -/

lemma regFind_isSome_iff (reg : List (String × Session)) (u : String) :
    (regFind reg u).isSome = true ↔ u ∈ reg.map Prod.fst := by
  unfold regFind
  induction reg with
  | nil => simp
  | cons p rest ih =>
      rw [List.find?_cons]
      cases hb : (p.1 == u) with
      | true =>
          have : p.1 = u := by simpa using hb
          simp [this]
      | false =>
          have : ¬ p.1 = u := by simpa using hb
          simp [this, ih, Ne.symm this]

lemma regFind_eq_none_iff (reg : List (String × Session)) (u : String) :
    regFind reg u = none ↔ u ∉ reg.map Prod.fst := by
  rw [← regFind_isSome_iff]
  cases regFind reg u <;> simp

lemma regFind_some_mem {reg : List (String × Session)} {u : String}
    {s : Session} (h : regFind reg u = some s) : (u, s) ∈ reg := by
  unfold regFind at h
  obtain ⟨p, hp, hps⟩ := Option.map_eq_some'.1 h
  have hmem := List.mem_of_find?_eq_some hp
  have hkey : p.1 = u := by
    have := List.find?_some hp
    simpa using this
  obtain ⟨a, b⟩ := p
  cases hkey
  cases hps
  exact hmem

lemma regFind_none_find? {reg : List (String × Session)} {u : String}
    (h : regFind reg u = none) : reg.find? (fun p => p.1 == u) = none := by
  unfold regFind at h
  exact Option.map_eq_none'.1 h

lemma mem_regErase {reg : List (String × Session)} {u : String}
    {p : String × Session} :
    p ∈ regErase reg u ↔ p ∈ reg ∧ ¬ p.1 = u := by
  unfold regErase
  rw [List.mem_filter]
  simp

lemma regErase_keys (reg : List (String × Session)) (u : String) :
    (regErase reg u).map Prod.fst =
      (reg.map Prod.fst).filter (fun k => !(k == u)) := by
  unfold regErase
  induction reg with
  | nil => rfl
  | cons p rest ih =>
      rw [List.filter_cons, List.map_cons, List.filter_cons]
      cases hb : (p.1 == u) <;> simp [hb, ih]

lemma regFind_regErase_self (reg : List (String × Session)) (u : String) :
    regFind (regErase reg u) u = none := by
  rw [regFind_eq_none_iff, regErase_keys]
  intro h
  obtain ⟨hmem, hkeep⟩ := List.mem_filter.1 h
  simp at hkeep

lemma regSet_keys_of_found (reg : List (String × Session)) (u : String)
    (s : Session) (h : (reg.find? (fun p => p.1 == u)).isSome = true) :
    (regSet reg u s).map Prod.fst = reg.map Prod.fst := by
  unfold regSet
  rw [if_pos h, List.map_map]
  apply List.map_congr_left
  intro p _
  by_cases hc : p.1 = u
  · simp [hc]
  · simp [hc]

lemma mem_regSet_found {reg : List (String × Session)} {u : String}
    {s : Session} (h : (reg.find? (fun p => p.1 == u)).isSome = true)
    {p : String × Session} (hp : p ∈ regSet reg u s) :
    (p ∈ reg ∧ ¬ p.1 = u) ∨ p = (u, s) := by
  unfold regSet at hp
  rw [if_pos h] at hp
  obtain ⟨q, hq, hqe⟩ := List.mem_map.1 hp
  by_cases hc : q.1 = u
  · right; rw [← hqe]; simp [hc]
  · left
    have hqe' : (if q.1 == u then (u, s) else q) = q := if_neg (by simp [hc])
    rw [← hqe, hqe']
    exact ⟨hq, hc⟩

lemma find?_map_update (u : String) (s : Session) :
    ∀ reg : List (String × Session),
      (reg.find? (fun p => p.1 == u)).isSome = true →
      (reg.map (fun p => if p.1 == u then (u, s) else p)).find?
          (fun p => p.1 == u) = some (u, s)
  | [], h => by simp at h
  | p :: rest, h => by
      cases hb : (p.1 == u) with
      | true =>
          have hif : (if (p.1 == u) = true then (u, s) else p) = (u, s) :=
            if_pos hb
          rw [List.map_cons, hif, List.find?_cons]
          simp
      | false =>
          have hif : (if (p.1 == u) = true then (u, s) else p) = p :=
            if_neg (by simp [hb])
          rw [List.find?_cons] at h
          rw [List.map_cons, hif, List.find?_cons]
          simp only [hb] at h ⊢
          exact find?_map_update u s rest h

lemma regFind_regSet_self (reg : List (String × Session)) (u : String)
    (s : Session) : regFind (regSet reg u s) u = some s := by
  unfold regSet
  by_cases h : (reg.find? (fun p => p.1 == u)).isSome = true
  · rw [if_pos h]
    unfold regFind
    rw [find?_map_update u s reg h]
    rfl
  · rw [if_neg h]
    unfold regFind
    have hnone : reg.find? (fun p => p.1 == u) = none := by
      cases hf : reg.find? (fun p => p.1 == u)
      · rfl
      · rw [hf] at h; simp at h
    rw [List.find?_append, hnone]
    simp

/-! ## Task-arena lemmas -/

lemma cancelTask_map_tid (tid : Nat) (ts : List TaskRec) :
    (cancelTask tid ts).map TaskRec.tid = ts.map TaskRec.tid := by
  unfold cancelTask
  rw [List.map_map]
  apply List.map_congr_left
  intro t _
  by_cases h : t.tid = tid
  · simp [h]
  · simp [h]

lemma cancelTask_shape {tid : Nat} {ts : List TaskRec} {t' : TaskRec}
    (h : t' ∈ cancelTask tid ts) :
    ∃ t ∈ ts, t'.tid = t.tid ∧ t'.tuser = t.tuser ∧
      (t'.tlive = true → t.tlive = true) ∧
      (t.tid = tid → t'.tlive = false) := by
  unfold cancelTask at h
  obtain ⟨t, ht, hte⟩ := List.mem_map.1 h
  refine ⟨t, ht, ?_⟩
  by_cases hc : t.tid = tid
  · rw [← hte]; simp [hc]
  · rw [← hte]
    refine ⟨by simp [hc], by simp [hc], by simp [hc], fun h => absurd h hc⟩

lemma mem_cancelTask_of_ne {tid : Nat} {ts : List TaskRec} {t : TaskRec}
    (ht : t ∈ ts) (hne : ¬ t.tid = tid) : t ∈ cancelTask tid ts := by
  unfold cancelTask
  have := List.mem_map_of_mem (fun t =>
    if t.tid == tid then { t with tlive := false } else t) ht
  simpa [hne] using this

lemma liveCount_append (v : String) (ts1 ts2 : List TaskRec) :
    liveCount v (ts1 ++ ts2) = liveCount v ts1 + liveCount v ts2 := by
  unfold liveCount
  rw [List.filter_append, List.length_append]

lemma liveCount_eq_zero (v : String) (ts : List TaskRec)
    (h : ∀ t ∈ ts, t.tuser = v → t.tlive = false) : liveCount v ts = 0 := by
  unfold liveCount
  rw [List.length_eq_zero, List.filter_eq_nil]
  intro t ht
  by_cases hu : t.tuser = v
  · simp [hu, h t ht hu]
  · simp [hu]

lemma liveCount_cancelTask_of_other (v : String) (tid : Nat)
    (ts : List TaskRec) (h : ∀ t ∈ ts, t.tid = tid → ¬ t.tuser = v) :
    liveCount v (cancelTask tid ts) = liveCount v ts := by
  induction ts with
  | nil => rfl
  | cons t rest ih =>
      have hrest : ∀ t' ∈ rest, t'.tid = tid → ¬ t'.tuser = v :=
        fun t' ht' => h t' (List.mem_cons_of_mem _ ht')
      by_cases hc : t.tid = tid
      · have hv : ¬ t.tuser = v := h t (List.mem_cons_self _ _) hc
        unfold cancelTask liveCount at ih ⊢
        rw [List.map_cons, if_pos (by simp [hc] : (t.tid == tid) = true)]
        rw [List.filter_cons, List.filter_cons]
        have h1 : (({ t with tlive := false } : TaskRec).tuser == v &&
            ({ t with tlive := false } : TaskRec).tlive) = false := by
          simp [hv]
        have h2 : (t.tuser == v && t.tlive) = false := by simp [hv]
        rw [h1, h2]
        simpa using ih hrest
      · unfold cancelTask liveCount at ih ⊢
        rw [List.map_cons, if_neg (by simp [hc])]
        rw [List.filter_cons, List.filter_cons]
        cases hp : (t.tuser == v && t.tlive) <;>
          simpa [hp] using ih hrest

lemma live_task_unique {v : String} {ts : List TaskRec}
    (h : liveCount v ts = 1) {r : TaskRec} (hr : r ∈ ts)
    (hru : r.tuser = v) (hrl : r.tlive = true) :
    ∀ t ∈ ts, t.tuser = v → t.tlive = true → t = r := by
  unfold liveCount at h
  obtain ⟨x, hx⟩ := List.length_eq_one.1 h
  intro t ht htu htl
  have hrf : r ∈ ts.filter (fun t => t.tuser == v && t.tlive) :=
    List.mem_filter.2 ⟨hr, by simp [hru, hrl]⟩
  have htf : t ∈ ts.filter (fun t => t.tuser == v && t.tlive) :=
    List.mem_filter.2 ⟨ht, by simp [htu, htl]⟩
  rw [hx, List.mem_singleton] at hrf htf
  rw [htf, hrf]

lemma sessionTaskLive_spec {u : String} {s : Session} {ts : List TaskRec}
    (h : sessionTaskLive u s ts = true) :
    ∃ tid, s.task = some tid ∧
      ∃ t ∈ ts, t.tid = tid ∧ t.tuser = u ∧ t.tlive = true := by
  unfold sessionTaskLive at h
  cases htask : s.task with
  | none => rw [htask] at h; simp at h
  | some tid =>
      rw [htask] at h
      obtain ⟨t, ht, hprop⟩ := List.any_eq_true.1 h
      refine ⟨tid, rfl, t, ht, ?_⟩
      simp only [Bool.and_eq_true, beq_iff_eq] at hprop
      exact ⟨hprop.1.1, hprop.1.2, hprop.2⟩

lemma sessionTaskLive_mono {u : String} {s : Session} {ts ts' : List TaskRec}
    (h : sessionTaskLive u s ts = true)
    (hsub : ∀ t ∈ ts, t ∈ ts') : sessionTaskLive u s ts' = true := by
  obtain ⟨tid, htask, t, ht, h1, h2, h3⟩ := sessionTaskLive_spec h
  unfold sessionTaskLive
  rw [htask]
  exact List.any_eq_true.2 ⟨t, hsub t ht, by simp [h1, h2, h3]⟩

lemma tid_inj {ts : List TaskRec} (hnd : (ts.map TaskRec.tid).Nodup)
    {t1 t2 : TaskRec} (h1 : t1 ∈ ts) (h2 : t2 ∈ ts)
    (h : t1.tid = t2.tid) : t1 = t2 :=
  List.inj_on_of_nodup_map hnd h1 h2 h

/-! ## The removal transition (cancel stored task, delete entry, save) -/

lemma remove_and_cancel_good {st : PState} {u : String} {s : Session}
    (hG : GoodState st) (hfind : regFind st.reg u = some s) :
    GoodState ⟨regErase st.reg u, cancelSessionTask s st.tasks, st.nextId⟩ := by
  obtain ⟨⟨hndtid, hbound, hndkey⟩, hInv, hOwn⟩ := hG
  have hmem : (u, s) ∈ st.reg := regFind_some_mem hfind
  obtain ⟨hLive, hCount⟩ := hInv (u, s) hmem
  obtain ⟨tid, htask, t0, ht0, ht0tid, ht0user, ht0live⟩ :=
    sessionTaskLive_spec hLive
  have hcst : cancelSessionTask s st.tasks = cancelTask tid st.tasks := by
    unfold cancelSessionTask; rw [htask]
  rw [hcst]
  have htid_unique : ∀ t ∈ st.tasks, t.tid = tid → t = t0 := by
    intro t ht h
    exact tid_inj hndtid ht ht0 (by rw [h, ht0tid])
  refine ⟨⟨?_, ?_, ?_⟩, ?_, ?_⟩
  · show ((cancelTask tid st.tasks).map TaskRec.tid).Nodup
    rw [cancelTask_map_tid]; exact hndtid
  · intro t' ht'
    obtain ⟨t, ht, he1, _, _, _⟩ := cancelTask_shape ht'
    show t'.tid < st.nextId
    rw [he1]; exact hbound t ht
  · show ((regErase st.reg u).map Prod.fst).Nodup
    rw [regErase_keys]; exact hndkey.filter _
  · -- OneTaskInv
    intro p hp
    obtain ⟨hpreg, hpne⟩ := mem_regErase.1 hp
    obtain ⟨hpLive, hpCount⟩ := hInv p hpreg
    have hside : ∀ t ∈ st.tasks, t.tid = tid → ¬ t.tuser = p.1 := by
      intro t ht h hcontra
      apply hpne
      rw [← hcontra, htid_unique t ht h, ht0user]
    constructor
    · obtain ⟨tidp, htaskp, tp, htp, htp1, htp2, htp3⟩ :=
        sessionTaskLive_spec hpLive
      have htpne : ¬ tp.tid = tid := by
        intro h
        apply hpne
        rw [← htp2, htid_unique tp htp h, ht0user]
      unfold sessionTaskLive
      rw [htaskp]
      exact List.any_eq_true.2
        ⟨tp, mem_cancelTask_of_ne htp htpne, by simp [htp1, htp2, htp3]⟩
    · show liveCount p.1 (cancelTask tid st.tasks) = 1
      rw [liveCount_cancelTask_of_other p.1 tid st.tasks hside]
      exact hpCount
  · -- TasksOwned
    intro t' ht' hlive'
    obtain ⟨t, ht, he1, he2, he3, he4⟩ := cancelTask_shape ht'
    have htlive := he3 hlive'
    have hne : ¬ t.tuser = u := by
      intro hh
      have heq := live_task_unique hCount ht0 ht0user ht0live t ht hh htlive
      have : t'.tlive = false := he4 (by rw [heq, ht0tid])
      rw [hlive'] at this
      exact absurd this (by simp)
    have howner := hOwn t ht htlive
    show (regFind (regErase st.reg u) t'.tuser).isSome = true
    rw [he2, regFind_isSome_iff, regErase_keys, List.mem_filter]
    refine ⟨(regFind_isSome_iff st.reg t.tuser).1 howner, by simp [hne]⟩

/-! ## Preservation lemmas for the remaining transitions -/

lemma liveCount_single_self (u : String) (t : TaskRec)
    (hu : t.tuser = u) (hl : t.tlive = true) : liveCount u [t] = 1 := by
  unfold liveCount
  rw [List.filter_cons]
  simp [hu, hl]

lemma liveCount_single_other (u : String) (t : TaskRec)
    (hu : ¬ t.tuser = u) : liveCount u [t] = 0 := by
  unfold liveCount
  rw [List.filter_cons]
  simp [hu]

lemma regFind_isSome_find? (reg : List (String × Session)) (u : String) :
    (regFind reg u).isSome = (reg.find? (fun p => p.1 == u)).isSome := by
  unfold regFind
  cases reg.find? (fun p => p.1 == u) <;> rfl

lemma join_absent_good {cfg : Config} {st : PState}
    {u g code : String} {now : ℚ} {gname : Option String}
    (hG : GoodState st) (habs : regFind st.reg u = none) :
    GoodState (handle_group_increase cfg st u g code now gname).1 := by
  unfold handle_group_increase
  by_cases hen : is_group_enabled cfg g = false
  · rw [if_pos hen]; exact hG
  · rw [if_neg hen]
    by_cases hself : (u == cfg.self_id) = true
    · rw [if_pos hself]; exact hG
    · rw [if_neg hself]
      obtain ⟨⟨hndtid, hbound, hndkey⟩, hInv, hOwn⟩ := hG
      have hkeys : u ∉ st.reg.map Prod.fst := (regFind_eq_none_iff _ _).1 habs
      have hnotSome : ¬ (st.reg.find? (fun p => p.1 == u)).isSome = true := by
        rw [regFind_none_find? habs]; simp
      have hset : ∀ s : Session, regSet st.reg u s = st.reg ++ [(u, s)] := by
        intro s
        unfold regSet; rw [if_neg hnotSome]
      dsimp only
      rw [hset]
      refine ⟨⟨?_, ?_, ?_⟩, ?_, ?_⟩
      · show ((st.tasks ++ [(⟨st.nextId, u, g, true⟩ : TaskRec)]).map TaskRec.tid).Nodup
        rw [List.map_append, List.nodup_append]
        refine ⟨hndtid, by simp, ?_⟩
        intro a ha hb
        obtain ⟨t, ht, hte⟩ := List.mem_map.1 ha
        have hlt := hbound t ht
        simp only [List.map_cons, List.map_nil, List.mem_singleton] at hb
        rw [hte, hb] at hlt
        exact lt_irrefl _ hlt
      · intro t ht
        rcases List.mem_append.1 ht with h | h
        · exact lt_trans (hbound t h) (Nat.lt_succ_self _)
        · simp only [List.mem_singleton] at h
          rw [h]
          exact Nat.lt_succ_self _
      · show ((st.reg ++ [_]).map Prod.fst).Nodup
        rw [List.map_append, List.nodup_append]
        refine ⟨hndkey, by simp, ?_⟩
        intro a ha hb
        simp only [List.map_cons, List.map_nil, List.mem_singleton] at hb
        rw [hb] at ha
        exact hkeys ha
      · -- OneTaskInv
        intro p hp
        rcases List.mem_append.1 hp with h | h
        · obtain ⟨hpLive, hpCount⟩ := hInv p h
          have hp1 : p.1 ∈ st.reg.map Prod.fst :=
            List.mem_map_of_mem Prod.fst h
          have hp1u : ¬ (⟨st.nextId, u, g, true⟩ : TaskRec).tuser = p.1 := by
            intro hc
            apply hkeys
            have hc' : u = p.1 := hc
            rw [hc']
            exact hp1
          constructor
          · exact sessionTaskLive_mono hpLive
              (fun t ht => List.mem_append_left _ ht)
          · rw [liveCount_append, liveCount_single_other _ _ hp1u]
            rw [hpCount]
        · simp only [List.mem_singleton] at h
          rw [h]
          constructor
          · unfold sessionTaskLive
            refine List.any_eq_true.2 ⟨⟨st.nextId, u, g, true⟩, ?_, by simp⟩
            exact List.mem_append_right _ (List.mem_singleton.2 rfl)
          · rw [liveCount_append, liveCount_single_self u _ rfl rfl]
            have hzero : liveCount u st.tasks = 0 := by
              apply liveCount_eq_zero
              intro t ht htu
              cases hl : t.tlive with
              | false => rfl
              | true =>
                  exfalso
                  have := hOwn t ht hl
                  rw [regFind_isSome_iff] at this
                  rw [htu] at this
                  exact hkeys this
            rw [hzero]
      · -- TasksOwned
        intro t ht hl
        have hfound := regFind_regSet_self st.reg u
          { group_id := g, codes := {code}, join_time := now,
            task := some st.nextId }
        rw [hset _] at hfound
        rcases List.mem_append.1 ht with h | h
        · have := hOwn t h hl
          rw [regFind_isSome_iff] at this ⊢
          rw [List.map_append]
          exact List.mem_append_left _ this
        · simp only [List.mem_singleton] at h
          rw [h]
          show (regFind (st.reg ++ [_]) u).isSome = true
          rw [hfound]
          rfl

lemma resend_good {cfg : Config} {st : PState}
    {u g email code : String} {gname : Option String} (hG : GoodState st) :
    GoodState (resend_verify_code cfg st u g email code gname).1 := by
  unfold resend_verify_code
  by_cases hen : is_group_enabled cfg g = false
  · rw [if_pos hen]; exact hG
  · rw [if_neg hen]
    cases hf : regFind st.reg u with
    | none => exact hG
    | some s =>
        dsimp only
        by_cases hgr : (!(s.group_id == g)) = true
        · rw [if_pos hgr]; exact hG
        · rw [if_neg hgr]
          by_cases hm : reMatchEmail
              (if email == "" then u ++ "@qq.com" else pyStrip email) = false
          · rw [if_pos hm]; exact hG
          · rw [if_neg hm]
            obtain ⟨⟨hndtid, hbound, hndkey⟩, hInv, hOwn⟩ := hG
            have hSome : (st.reg.find? (fun p => p.1 == u)).isSome = true := by
              rw [← regFind_isSome_find?, hf]; rfl
            have hkeyeq := regSet_keys_of_found st.reg u
              { s with codes := insert code s.codes } hSome
            refine ⟨⟨hndtid, hbound, ?_⟩, ?_, ?_⟩
            · show ((regSet st.reg u _).map Prod.fst).Nodup
              rw [hkeyeq]; exact hndkey
            · intro p hp
              rcases mem_regSet_found hSome hp with ⟨hmem, _⟩ | heq
              · exact hInv p hmem
              · obtain ⟨hLive, hCount⟩ := hInv (u, s) (regFind_some_mem hf)
                rw [heq]
                exact ⟨hLive, hCount⟩
            · intro t ht hl
              have := hOwn t ht hl
              rw [regFind_isSome_iff] at this ⊢
              rw [hkeyeq]
              exact this

lemma kick_fire_good {cfg : Config} {st : PState} {tid : Nat}
    {u g g' : String} {cOk sF kF : Bool} (hG : GoodState st)
    (hrec : (⟨tid, u, g', true⟩ : TaskRec) ∈ st.tasks) :
    GoodState (kick_task_fire cfg st tid u g cOk sF kF).1 := by
  unfold kick_task_fire
  cases hf : regFind st.reg u with
  | none =>
      dsimp only
      obtain ⟨⟨hndtid, hbound, hndkey⟩, hInv, hOwn⟩ := hG
      have hkeys : u ∉ st.reg.map Prod.fst := (regFind_eq_none_iff _ _).1 hf
      have htid_unique : ∀ t ∈ st.tasks, t.tid = tid →
          t = (⟨tid, u, g', true⟩ : TaskRec) := by
        intro t ht h
        exact tid_inj hndtid ht hrec h
      refine ⟨⟨?_, ?_, ?_⟩, ?_, ?_⟩
      · show ((cancelTask tid st.tasks).map TaskRec.tid).Nodup
        rw [cancelTask_map_tid]; exact hndtid
      · intro t' ht'
        obtain ⟨t, ht, he1, _, _, _⟩ := cancelTask_shape ht'
        show t'.tid < st.nextId
        rw [he1]; exact hbound t ht
      · exact hndkey
      · intro p hp
        obtain ⟨hpLive, hpCount⟩ := hInv p hp
        have hp1 : p.1 ∈ st.reg.map Prod.fst := List.mem_map_of_mem Prod.fst hp
        have hside : ∀ t ∈ st.tasks, t.tid = tid → ¬ t.tuser = p.1 := by
          intro t ht h hcontra
          rw [htid_unique t ht h] at hcontra
          have hc' : u = p.1 := hcontra
          rw [hc'] at hkeys
          exact hkeys hp1
        constructor
        · obtain ⟨tidp, htaskp, tp, htp, htp1, htp2, htp3⟩ :=
            sessionTaskLive_spec hpLive
          have htpne : ¬ tp.tid = tid := by
            intro h
            exact hside tp htp h htp2
          unfold sessionTaskLive
          rw [htaskp]
          exact List.any_eq_true.2
            ⟨tp, mem_cancelTask_of_ne htp htpne, by simp [htp1, htp2, htp3]⟩
        · show liveCount p.1 (cancelTask tid st.tasks) = 1
          rw [liveCount_cancelTask_of_other p.1 tid st.tasks hside]
          exact hpCount
      · intro t' ht' hlive'
        obtain ⟨t, ht, he1, he2, he3, _⟩ := cancelTask_shape ht'
        have := hOwn t ht (he3 hlive')
        show (regFind st.reg t'.tuser).isSome = true
        rw [he2]
        exact this
  | some s =>
      dsimp only
      have hmem := regFind_some_mem hf
      obtain ⟨hLive, hCount⟩ := hG.2.1 (u, s) hmem
      obtain ⟨tid0, htask, t0, ht0, h1, h2, h3⟩ := sessionTaskLive_spec hLive
      have hrec_eq : (⟨tid, u, g', true⟩ : TaskRec) = t0 :=
        live_task_unique hCount ht0 h2 h3 _ hrec rfl rfl
      have htid : tid = tid0 := by
        have := congrArg TaskRec.tid hrec_eq
        rw [h1] at this
        exact this
      have hc : cancelTask tid st.tasks = cancelSessionTask s st.tasks := by
        unfold cancelSessionTask
        rw [htask, htid]
      show GoodState ⟨regErase st.reg u, cancelTask tid st.tasks, st.nextId⟩
      rw [hc]
      exact remove_and_cancel_good hG hf

lemma liveCount_cons (v : String) (t : TaskRec) (ts : List TaskRec) :
    liveCount v (t :: ts) =
      (if (t.tuser == v && t.tlive) = true then 1 else 0) + liveCount v ts := by
  unfold liveCount
  rw [List.filter_cons]
  cases h : (t.tuser == v && t.tlive) <;> simp [Nat.add_comm]

lemma resume_go_good (kd : ℤ) (now : ℚ) :
    ∀ (reg : List (String × Session)) (nid : Nat),
      (reg.map Prod.fst).Nodup →
      ((resume_go kd now nid reg).1.map Prod.fst = reg.map Prod.fst) ∧
      (∀ t ∈ (resume_go kd now nid reg).2.1,
         nid ≤ t.tid ∧ t.tid < (resume_go kd now nid reg).2.2.1 ∧
         t.tlive = true ∧ t.tuser ∈ reg.map Prod.fst) ∧
      (((resume_go kd now nid reg).2.1.map TaskRec.tid).Nodup) ∧
      (nid ≤ (resume_go kd now nid reg).2.2.1) ∧
      (∀ p ∈ (resume_go kd now nid reg).1,
         sessionTaskLive p.1 p.2 (resume_go kd now nid reg).2.1 = true ∧
         liveCount p.1 (resume_go kd now nid reg).2.1 = 1)
  | [], nid, _ => by
      refine ⟨rfl, ?_, ?_, le_refl _, ?_⟩ <;> simp [resume_go]
  | (u, s) :: rest, nid, hnd => by
      rw [List.map_cons, List.nodup_cons] at hnd
      obtain ⟨hu, hndrest⟩ := hnd
      obtain ⟨ihkeys, ihtasks, ihnd, ihle, ihsess⟩ :=
        resume_go_good kd now rest (nid + 1) hndrest
      have hcons1 : (resume_go kd now nid ((u, s) :: rest)).1 =
          (u, { s with task := some nid }) :: (resume_go kd now (nid + 1) rest).1 := rfl
      have hcons2 : (resume_go kd now nid ((u, s) :: rest)).2.1 =
          (⟨nid, u, s.group_id, true⟩ : TaskRec) ::
            (resume_go kd now (nid + 1) rest).2.1 := rfl
      have hcons3 : (resume_go kd now nid ((u, s) :: rest)).2.2.1 =
          (resume_go kd now (nid + 1) rest).2.2.1 := rfl
      have htail_user : ∀ t ∈ (resume_go kd now (nid + 1) rest).2.1,
          ¬ t.tuser = u := by
        intro t ht hc
        apply hu
        rw [← hc]
        exact (ihtasks t ht).2.2.2
      refine ⟨?_, ?_, ?_, ?_, ?_⟩
      · rw [hcons1, List.map_cons, ihkeys, List.map_cons]
      · intro t ht
        rw [hcons2] at ht
        rw [hcons3]
        rcases List.mem_cons.1 ht with h | h
        · rw [h]
          refine ⟨le_refl _, lt_of_lt_of_le (Nat.lt_succ_self _) ihle, rfl, ?_⟩
          rw [List.map_cons]
          exact List.mem_cons_self _ _
        · obtain ⟨ha, hb, hc, hd⟩ := ihtasks t h
          refine ⟨le_trans (Nat.le_succ _) ha, hb, hc, ?_⟩
          rw [List.map_cons]
          exact List.mem_cons_of_mem _ hd
      · rw [hcons2, List.map_cons, List.nodup_cons]
        refine ⟨?_, ihnd⟩
        intro hmem
        obtain ⟨t, ht, hte⟩ := List.mem_map.1 hmem
        have := (ihtasks t ht).1
        rw [hte] at this
        exact absurd this (by simp)
      · rw [hcons3]
        exact le_trans (Nat.le_succ _) ihle
      · intro p hp
        rw [hcons1] at hp
        rw [hcons2]
        rcases List.mem_cons.1 hp with h | h
        · rw [h]
          constructor
          · unfold sessionTaskLive
            show ((⟨nid, u, s.group_id, true⟩ : TaskRec) ::
              (resume_go kd now (nid + 1) rest).2.1).any _ = true
            refine List.any_eq_true.2 ⟨⟨nid, u, s.group_id, true⟩,
              List.mem_cons_self _ _, by simp⟩
          · rw [liveCount_cons]
            have hzero : liveCount u (resume_go kd now (nid + 1) rest).2.1 = 0 :=
              liveCount_eq_zero _ _
                (fun t ht htu => absurd htu (htail_user t ht))
            simp [hzero]
        · obtain ⟨hLive, hCount⟩ := ihsess p h
          have hp1 : p.1 ∈ rest.map Prod.fst := by
            rw [← ihkeys]
            exact List.mem_map_of_mem Prod.fst h
          have hne : ¬ ((⟨nid, u, s.group_id, true⟩ : TaskRec).tuser == p.1 &&
              (⟨nid, u, s.group_id, true⟩ : TaskRec).tlive) = true := by
            intro hc
            simp only [Bool.and_eq_true, beq_iff_eq] at hc
            apply hu
            rw [hc.1]
            exact hp1
          constructor
          · exact sessionTaskLive_mono hLive
              (fun t ht => List.mem_cons_of_mem _ ht)
          · rw [liveCount_cons, if_neg hne, hCount]

lemma resume_tasks_good {cfg : Config} {now : ℚ} {st : PState}
    (hts : st.tasks = []) (hnd : (st.reg.map Prod.fst).Nodup) :
    GoodState (resume_tasks cfg now st).1 := by
  unfold resume_tasks
  obtain ⟨hkeys, htasks, hndt, _, hsess⟩ :=
    resume_go_good cfg.kick_delay_seconds now st.reg st.nextId hnd
  dsimp only
  rw [hts, List.nil_append]
  refine ⟨⟨hndt, ?_, ?_⟩, ?_, ?_⟩
  · intro t ht
    exact (htasks t ht).2.1
  · show ((resume_go cfg.kick_delay_seconds now st.nextId st.reg).1.map
      Prod.fst).Nodup
    rw [hkeys]
    exact hnd
  · intro p hp
    exact hsess p hp
  · intro t ht _
    have := (htasks t ht).2.2.2
    show (regFind (resume_go cfg.kick_delay_seconds now st.nextId st.reg).1
      t.tuser).isSome = true
    rw [regFind_isSome_iff, hkeys]
    exact this

lemma decrease_good {cfg : Config} {st : PState} {u g : String}
    (hG : GoodState st) :
    GoodState (handle_group_decrease cfg st u g).1 := by
  unfold handle_group_decrease
  cases hf : regFind st.reg u with
  | none => exact hG
  | some s =>
      show GoodState ⟨regErase st.reg u, cancelSessionTask s st.tasks, st.nextId⟩
      exact remove_and_cancel_good hG hf

lemma message_good {cfg : Config} {st : PState} {u g txt : String}
    (hG : GoodState st) :
    GoodState (handle_group_message cfg st u g txt).1 := by
  unfold handle_group_message
  by_cases hen : is_group_enabled cfg g = false
  · rw [if_pos hen]; exact hG
  · rw [if_neg hen]
    cases hf : regFind st.reg u with
    | none => exact hG
    | some s =>
        dsimp only
        by_cases hgr : (!(s.group_id == g)) = true
        · rw [if_pos hgr]; exact hG
        · rw [if_neg hgr]
          by_cases hcode : pyStrip txt ∈ s.codes
          · rw [if_pos hcode]
            exact remove_and_cancel_good hG hf
          · rw [if_neg hcode]; exact hG

/-! ## Resume-delay lemmas -/

lemma resume_delay_eq_max (kd : ℤ) (now jt : ℚ) :
    resume_delay kd now jt = max 0 ((kd : ℚ) - (now - jt)) := by
  unfold resume_delay
  by_cases h : (kd : ℚ) - (now - jt) ≤ 0
  · rw [if_pos h, max_eq_left h]
  · rw [if_neg h, max_eq_right (le_of_lt (lt_of_not_le h))]

lemma resume_go_action_mem (kd : ℤ) (now : ℚ) :
    ∀ (reg : List (String × Session)) (nid : Nat) (u : String) (s : Session),
      (u, s) ∈ reg →
      ∃ tid, Act.startKickTask tid u s.group_id
        (resume_delay kd now s.join_time) ∈ (resume_go kd now nid reg).2.2.2
  | [], _, _, _, h => absurd h (List.not_mem_nil _)
  | (v, sv) :: rest, nid, u, s, h => by
      rcases List.mem_cons.1 h with h1 | h2
      · refine ⟨nid, ?_⟩
        have hv : v = u := congrArg Prod.fst h1.symm
        have hsv : sv = s := congrArg Prod.snd h1.symm
        show Act.startKickTask nid u s.group_id _ ∈
          Act.startKickTask nid v sv.group_id
            (resume_delay kd now sv.join_time) :: _
        rw [hv, hsv]
        exact List.mem_cons_self _ _
      · obtain ⟨tid, ht⟩ := resume_go_action_mem kd now rest (nid + 1) u s h2
        exact ⟨tid, List.mem_cons_of_mem _ ht⟩

/-! ## Claim theorems -/

/-- C8: for every group id, `_is_group_enabled` evaluates the static
three-way policy: a non-empty whitelist enables exactly its members
(blacklist ignored); otherwise a non-empty blacklist enables exactly the
non-members; otherwise every group is enabled. -/
theorem group_filter_three_way (cfg : Config) (g : String) :
    (cfg.whitelist_groups.Nonempty →
      (is_group_enabled cfg g = true ↔ g ∈ cfg.whitelist_groups)) ∧
    (¬ cfg.whitelist_groups.Nonempty → cfg.blacklist_groups.Nonempty →
      (is_group_enabled cfg g = true ↔ g ∉ cfg.blacklist_groups)) ∧
    (¬ cfg.whitelist_groups.Nonempty → ¬ cfg.blacklist_groups.Nonempty →
      is_group_enabled cfg g = true) := by
  unfold is_group_enabled
  refine ⟨?_, ?_, ?_⟩
  · intro h
    rw [if_pos h]
    simp
  · intro h1 h2
    rw [if_neg h1, if_pos h2]
    simp
  · intro h1 h2
    rw [if_neg h1, if_neg h2]

/-- Witness for C8: with whitelist `{"200"}`, group `200` is enabled. -/
theorem group_filter_three_way_witness : is_group_enabled cfgW "200" = true :=
  ((group_filter_three_way cfgW "200").1 (by decide)).2 (by decide)

/-- C5: saving any registry and loading it back yields the same users with
the same `group_id`, the same `join_time` and the same code set, task
handles dropped; moreover `load` is insensitive to the order (indeed to any
set-equal choice) of each serialized `codes` list. -/
theorem save_load_round_trip :
    (∀ reg : List (String × Session),
      load_data (save_data reg) =
        reg.map (fun p => (p.1, { p.2 with task := none }))) ∧
    (∀ d d' : List (String × Snapshot),
      List.Forall₂ (fun a b => a.1 = b.1 ∧ a.2.group_id = b.2.group_id ∧
        a.2.join_time = b.2.join_time ∧
        a.2.codes.toFinset = b.2.codes.toFinset) d d' →
      load_data d = load_data d') := by
  constructor
  · intro reg
    unfold load_data save_data
    rw [List.map_map]
    apply List.map_congr_left
    intro p _
    show (p.1, Session.mk p.2.group_id
        ((p.2.codes.sort (· ≤ ·)).toFinset) p.2.join_time none) =
      (p.1, Session.mk p.2.group_id p.2.codes p.2.join_time none)
    rw [Finset.sort_toFinset]
  · intro d d' h
    induction h with
    | nil => rfl
    | cons hab htail ih =>
        obtain ⟨h1, h2, h3, h4⟩ := hab
        unfold load_data at ih ⊢
        rw [List.map_cons, List.map_cons]
        rw [ih]
        congr 1
        rw [h1, h2, h3, h4]

/-- Witness for C5's order-insensitivity hypothesis: two stores listing the
same two codes in opposite orders load identically. -/
theorem save_load_round_trip_witness :
    load_data [("A", ⟨"1", ["111111", "222222"], 5⟩)] =
      load_data [("A", ⟨"1", ["222222", "111111"], 5⟩)] :=
  save_load_round_trip.2 _ _
    (List.forall₂_cons.2 ⟨⟨rfl, rfl, rfl, by decide⟩, List.Forall₂.nil⟩)

/-- C6: restart resumption re-arms every loaded session's expiry task with
remaining duration `max 0 (timeout - (now - joined_at))`; a session whose
deadline already passed gets delay 0 (immediate fire), and a session with
`joined_at = now` gets the full timeout. -/
theorem resume_rearms_with_clamped_delay (cfg : Config) (now : ℚ)
    (st : PState) (u : String) (s : Session) (h : (u, s) ∈ st.reg) :
    (∃ tid, Act.startKickTask tid u s.group_id
      (max 0 ((cfg.kick_delay_seconds : ℚ) - (now - s.join_time))) ∈
        (resume_tasks cfg now st).2) ∧
    (s.join_time ≤ now - (cfg.kick_delay_seconds : ℚ) →
      resume_delay cfg.kick_delay_seconds now s.join_time = 0) ∧
    (s.join_time = now → 0 ≤ cfg.kick_delay_seconds →
      resume_delay cfg.kick_delay_seconds now s.join_time =
        (cfg.kick_delay_seconds : ℚ)) := by
  refine ⟨?_, ?_, ?_⟩
  · rw [← resume_delay_eq_max]
    exact resume_go_action_mem cfg.kick_delay_seconds now st.reg st.nextId u s h
  · intro hle
    unfold resume_delay
    rw [if_pos (by linarith)]
  · intro heq hkd
    unfold resume_delay
    rw [heq]
    by_cases hz : (cfg.kick_delay_seconds : ℚ) - (now - now) ≤ 0
    · rw [if_pos hz]
      have : (0 : ℚ) ≤ (cfg.kick_delay_seconds : ℚ) := by exact_mod_cast hkd
      linarith [hz]
    · rw [if_neg hz]
      ring

/-- Witness for C6: the loaded session of `stLoaded` (joined at 0, timeout
300) resumed at time 310 is re-armed with delay `max 0 (300 - 310) = 0`. -/
theorem resume_rearms_witness :
    ∃ tid, Act.startKickTask tid "A" "1" (max 0 ((300 : ℚ) - (310 - 0))) ∈
      (resume_tasks cfg0 310 stLoaded).2 :=
  (resume_rearms_with_clamped_delay cfg0 310 stLoaded "A"
    ⟨"1", {"111111"}, 0, none⟩ (by decide)).1

/-- C7: a resend invocation by a user pending in the invoking group whose
non-empty email argument fails the address-shape check replies with the
format-error message and nothing else: the state (registry, tasks, counter)
is returned unchanged, so no code is added, nothing is persisted, and no
mail task is started. -/
theorem resend_rejects_malformed_email (cfg : Config) (st : PState)
    (u g email code : String) (gname : Option String) (s : Session)
    (hen : is_group_enabled cfg g = true)
    (hs : regFind st.reg u = some s)
    (hg : s.group_id = g)
    (hne : ¬ email = "")
    (hbad : reMatchEmail (pyStrip email) = false) :
    resend_verify_code cfg st u g email code gname =
      (st, [Act.reply ("邮箱格式不正确: " ++ pyStrip email)]) := by
  unfold resend_verify_code
  rw [if_neg (by rw [hen]; simp)]
  rw [hs]
  dsimp only
  rw [if_neg (by simp [hg])]
  rw [if_neg (show ¬ (email == "") = true by simp [hne])]
  rw [if_pos hbad]

/-- Witness for C7: user `100`, pending in group `1` of `st0`, resending
with email argument `not-an-email` gets the format-error reply and the
state is unchanged. -/
theorem resend_rejects_malformed_email_witness :
    resend_verify_code cfg0 st0 "100" "1" "not-an-email" "333333" none =
      (st0, [Act.reply ("邮箱格式不正确: " ++ pyStrip "not-an-email")]) :=
  resend_rejects_malformed_email cfg0 st0 "100" "1" "not-an-email" "333333"
    none ⟨"1", {"111111"}, 0, some 0⟩ (by decide) (by decide) (by decide)
    (by decide) (by decide)

/-- C10: a resend invocation from a group the filter reports as disabled
returns with no reply and no state change, even when the invoker has a
pending session. -/
theorem resend_disabled_group_is_silent (cfg : Config) (st : PState)
    (u g email code : String) (gname : Option String)
    (h : is_group_enabled cfg g = false) :
    resend_verify_code cfg st u g email code gname = (st, []) := by
  unfold resend_verify_code
  rw [if_pos h]

/-- Witness for C10: under the whitelist `{"200"}`, user `100` — who has a
pending session in group `300` in `stPend` — resending from group `300`
gets no reply and no state change. -/
theorem resend_disabled_group_is_silent_witness :
    resend_verify_code cfgW stPend "100" "300" "" "333333" none =
      (stPend, []) :=
  resend_disabled_group_is_silent cfgW stPend "100" "300" "" "333333" none
    (by decide)

/-- C9: the leave branch of `on_event` is keyed on the user only — its
result is identical for any two notification `group_id`s — and when the
user has a pending session it removes the session and cancels the stored
expiry task. -/
theorem leave_destroys_session_regardless_of_group (cfg : Config)
    (st : PState) (u g g' code : String) (now : ℚ) (gname : Option String)
    (s : Session) :
    on_event cfg st (.group_decrease u g) code now gname =
      on_event cfg st (.group_decrease u g') code now gname ∧
    (regFind st.reg u = some s →
      regFind (on_event cfg st (.group_decrease u g) code now gname).1.reg u
        = none ∧
      (on_event cfg st (.group_decrease u g) code now gname).1.tasks =
        cancelSessionTask s st.tasks) := by
  constructor
  · rfl
  · intro hs
    unfold on_event handle_group_decrease
    dsimp only
    rw [hs]
    exact ⟨regFind_regErase_self st.reg u, rfl⟩

/-- Witness for C9: a leave notification for user `100` carrying the
unrelated group `77` still removes the session created in group `1`. -/
theorem leave_destroys_session_witness :
    regFind (on_event cfg0 st0 (.group_decrease "100" "77") "x" 0
      none).1.reg "100" = none :=
  ((leave_destroys_session_regardless_of_group cfg0 st0 "100" "77" "88" "x"
    0 none ⟨"1", {"111111"}, 0, some 0⟩).2 (by decide)).1

/-- C4: when the expiry task fires, an absent session means no registry
change and no outbound action at all; a present session is removed from the
registry, with a persist in the trace, for every combination of client
availability and notice/kick failures. -/
theorem kick_fire_cleanup (cfg : Config) (st : PState) (tid : Nat)
    (u g : String) (cOk sF kF : Bool) :
    (regFind st.reg u = none →
      (kick_task_fire cfg st tid u g cOk sF kF).1.reg = st.reg ∧
      (kick_task_fire cfg st tid u g cOk sF kF).2 = []) ∧
    ((regFind st.reg u).isSome = true →
      regFind (kick_task_fire cfg st tid u g cOk sF kF).1.reg u = none ∧
      Act.persist ∈ (kick_task_fire cfg st tid u g cOk sF kF).2) := by
  constructor
  · intro h
    unfold kick_task_fire
    rw [h]
    exact ⟨rfl, rfl⟩
  · intro h
    obtain ⟨s, hs⟩ := Option.isSome_iff_exists.1 h
    unfold kick_task_fire
    rw [hs]
    dsimp only
    refine ⟨regFind_regErase_self st.reg u, ?_⟩
    exact List.mem_append_right _ (List.mem_singleton.2 rfl)

/-- Witness for C4: firing the expiry task for the pending user `100` of
`st0` with a failing notice message still removes the session and
persists. -/
theorem kick_fire_cleanup_witness :
    regFind (kick_task_fire cfg0 st0 0 "100" "1" true true false).1.reg
      "100" = none ∧
    Act.persist ∈ (kick_task_fire cfg0 st0 0 "100" "1" true true false).2 :=
  (kick_fire_cleanup cfg0 st0 0 "100" "1" true true false).2 (by decide)

/-- Counterexample to C1: user `100` has a pending session in `st0` with
codes `{111111}` joined at 0; after a second join event (state `st1`) the
session's code set and join timestamp have changed — creation was not a
no-op. -/
theorem join_existing_counterexample :
    (regFind st0.reg "100").map Session.codes = some {"111111"} ∧
    (regFind st0.reg "100").map Session.join_time = some 0 ∧
    ¬ (regFind st1.reg "100").map Session.codes = some {"111111"} ∧
    ¬ (regFind st1.reg "100").map Session.join_time = some 0 := by decide

/-- C1 (amended): a join event for a user who already has a pending session
overwrites it — afterwards the registry holds a fresh session (the event's
group, the single newly generated code, the new join time, a new task
handle) — and every pre-existing task record, in particular the old
session's still-live expiry task, is left untouched (not cancelled). -/
theorem join_existing_overwrites (cfg : Config) (st : PState)
    (u g code : String) (now : ℚ) (gname : Option String) (s : Session)
    (hen : is_group_enabled cfg g = true) (hself : ¬ u = cfg.self_id)
    (hs : regFind st.reg u = some s) :
    regFind (on_event cfg st (.group_increase u g) code now gname).1.reg u =
      some ⟨g, {code}, now, some st.nextId⟩ ∧
    ∀ t ∈ st.tasks,
      t ∈ (on_event cfg st (.group_increase u g) code now gname).1.tasks := by
  unfold on_event handle_group_increase
  dsimp only
  rw [if_neg (by rw [hen]; simp)]
  rw [if_neg (show ¬ (u == cfg.self_id) = true by simp [hself])]
  constructor
  · exact regFind_regSet_self st.reg u _
  · intro t ht
    exact List.mem_append_left _ ht

/-- Witness for C1's amended theorem at the concrete double join. -/
theorem join_existing_overwrites_witness :
    regFind (on_event cfg0 st0 (.group_increase "100" "1") "222222" 5
      none).1.reg "100" = some ⟨"1", {"222222"}, 5, some 1⟩ :=
  (join_existing_overwrites cfg0 st0 "100" "1" "222222" 5 none
    ⟨"1", {"111111"}, 0, some 0⟩ (by decide) (by decide) (by decide)).1

/-- Counterexample to C3: in the join handler's trace the expiry task is
started (index 0) BEFORE the registry insert and the persist, contradicting
the claimed order. -/
theorem join_trace_counterexample :
    ¬ (tr0.findIdx isRegistryInsertAction < tr0.findIdx isStartKickAction ∧
       tr0.findIdx isPersistAction < tr0.findIdx isStartKickAction) := by
  decide

/-- C3 (amended): the registry insert and the persist do precede the mail
task launch, but the expiry task is created before both; however no
suspension point occurs up to and including the persist, so under the
single event loop neither the expiry task body nor any concurrently handled
event can observe the not-yet-inserted/persisted session. -/
theorem join_trace_order (cfg : Config) (st : PState) (u g code : String)
    (now : ℚ) (gname : Option String)
    (hen : is_group_enabled cfg g = true) (hself : ¬ u = cfg.self_id) :
    ((handle_group_increase cfg st u g code now gname).2.findIdx
        isRegistryInsertAction <
      (handle_group_increase cfg st u g code now gname).2.findIdx
        isStartMailAction) ∧
    ((handle_group_increase cfg st u g code now gname).2.findIdx
        isPersistAction <
      (handle_group_increase cfg st u g code now gname).2.findIdx
        isStartMailAction) ∧
    ((handle_group_increase cfg st u g code now gname).2.findIdx
        isStartKickAction <
      (handle_group_increase cfg st u g code now gname).2.findIdx
        isRegistryInsertAction) ∧
    (∀ a ∈ (handle_group_increase cfg st u g code now gname).2.take
        ((handle_group_increase cfg st u g code now gname).2.findIdx
          isPersistAction + 1), isAwaitAction a = false) := by
  unfold handle_group_increase
  rw [if_neg (by rw [hen]; simp)]
  rw [if_neg (show ¬ (u == cfg.self_id) = true by simp [hself])]
  dsimp only
  refine ⟨?_, ?_, ?_, ?_⟩ <;>
    simp [List.findIdx_cons, isRegistryInsertAction, isStartMailAction,
      isPersistAction, isStartKickAction, isAwaitAction]

/-- Witness for C3's amended theorem on the concrete first-join trace. -/
theorem join_trace_order_witness :
    (handle_group_increase cfg0 stEmpty "100" "1" "111111" 0 none).2.findIdx
        isRegistryInsertAction <
      (handle_group_increase cfg0 stEmpty "100" "1" "111111" 0 none).2.findIdx
        isStartMailAction :=
  (join_trace_order cfg0 stEmpty "100" "1" "111111" 0 none (by decide)
    (by decide)).1

/-- Counterexample to C2: `st0` (one pending user) satisfies the claimed
invariant, but after a second join event for the same user (`st1`) the user
is still registered while owning TWO live expiry tasks — the join handler
neither checks for nor cancels the existing task. -/
theorem one_task_invariant_counterexample :
    (OneTaskInv st0 ∧ TasksOwned st0 ∧ StateWF st0) ∧
    (regFind st1.reg "100").isSome = true ∧
    liveCount "100" st1.tasks = 2 ∧
    ¬ OneTaskInv st1 := by decide

/-- C2 (amended): every operation — join handling for a user with no
pending session, leave handling, message matching, expiry firing, resend,
and restart resumption from a freshly loaded state — preserves the
one-live-expiry-task invariant (together with well-formedness and live-task
ownership); but a join event for a user who already has a pending session
leaves that user with two live expiry tasks, breaking the invariant. -/
theorem invariant_preservation (cfg : Config) :
    (∀ st (u g code : String) (now : ℚ) (gname : Option String),
      GoodState st → regFind st.reg u = none →
      GoodState (on_event cfg st (.group_increase u g) code now gname).1) ∧
    (∀ st (u g code : String) (now : ℚ) (gname : Option String),
      GoodState st →
      GoodState (on_event cfg st (.group_decrease u g) code now gname).1) ∧
    (∀ st (u g txt code : String) (now : ℚ) (gname : Option String),
      GoodState st →
      GoodState (on_event cfg st (.group_message u g txt) code now gname).1) ∧
    (∀ st (tid : Nat) (u g g' : String) (cOk sF kF : Bool),
      GoodState st → (⟨tid, u, g', true⟩ : TaskRec) ∈ st.tasks →
      GoodState (kick_task_fire cfg st tid u g cOk sF kF).1) ∧
    (∀ st (u g email code : String) (gname : Option String),
      GoodState st →
      GoodState (resend_verify_code cfg st u g email code gname).1) ∧
    (∀ st (now : ℚ), st.tasks = [] → (st.reg.map Prod.fst).Nodup →
      GoodState (resume_tasks cfg now st).1) ∧
    (∀ st (u g code : String) (now : ℚ) (gname : Option String)
      (s : Session), GoodState st →
      is_group_enabled cfg g = true → ¬ u = cfg.self_id →
      regFind st.reg u = some s →
      liveCount u
        (on_event cfg st (.group_increase u g) code now gname).1.tasks = 2) := by
  refine ⟨?_, ?_, ?_, ?_, ?_, ?_, ?_⟩
  · intro st u g code now gname hG habs
    exact @join_absent_good cfg st u g code now gname hG habs
  · intro st u g code now gname hG
    exact @decrease_good cfg st u g hG
  · intro st u g txt code now gname hG
    exact @message_good cfg st u g txt hG
  · intro st tid u g g' cOk sF kF hG hrec
    exact kick_fire_good hG hrec
  · intro st u g email code gname hG
    exact resend_good hG
  · intro st now h1 h2
    exact resume_tasks_good h1 h2
  · intro st u g code now gname s hG hen hself hs
    unfold on_event handle_group_increase
    dsimp only
    rw [if_neg (by rw [hen]; simp)]
    rw [if_neg (show ¬ (u == cfg.self_id) = true by simp [hself])]
    show liveCount u (st.tasks ++ [⟨st.nextId, u, g, true⟩]) = 2
    rw [liveCount_append, liveCount_single_self u _ rfl rfl]
    rw [(hG.2.1 (u, s) (regFind_some_mem hs)).2]

/-- Witness for C2's amended theorem: the leave transition applied to the
concrete good state `st0`. -/
theorem invariant_preservation_witness :
    GoodState (on_event cfg0 st0
      (.group_decrease "100" "1") "x" 0 none).1 :=
  (invariant_preservation cfg0).2.1 st0 "100" "1" "x" 0 none (by decide)
